import Mathlib

/-!
# Verification of `examples/compute_nav_area.py`

This file shallowly embeds the behaviourally relevant parts of the script
`examples/compute_nav_area.py` and proves properties of the embedding.

Modelling conventions:

* Python floats are modelled as real numbers (`ℝ`).
* The Habitat simulator is modelled as an abstract oracle (`Sim` below):
  `pathfinder.is_navigable` becomes `Sim.navigable`, `contact_test` becomes
  `Sim.contact` (the robot's collision state is a function of its base pose,
  the only state the script changes), and
  `VelocityControl.integrate_transform` applied to the robot's transformation
  becomes the pair `Sim.stepPos` / `Sim.stepRot` (target translation and
  target rotation angle as functions of the current base pose and the
  commanded linear and angular velocities; the constant `1 / ctrl_freq`
  time step is absorbed into the oracle).
* The mutable robot base pose and the mutable `visit_pos_rot` list are passed
  as explicit state and returned alongside the count.
* The recursion of `play_env` is not structurally terminating, so the
  embedding takes a fuel parameter; the outer `none` means the run was not
  modelled to completion (fuel ran out, or a child call returned Python
  `None` and the `ans += ...` line would have raised).  `some (none, ..)`
  models the bare `return` statements of the source, which return Python
  `None`.
-/

/-- A 3-component vector, as produced by `vec2list` in the source:
components `x = v.1`, `y = v.2.1`, `z = v.2.2`. -/
abbrev Vec3 : Type := ℝ × ℝ × ℝ

/-- A base pose: position plus scalar rotation angle.  Entries of
`visit_pos_rot` (source line 407: `[vec2list(after_base_pos),
float(after_base_rot)]`) have exactly this shape. -/
abbrev Pose : Type := Vec3 × ℝ

/-- Source line 82: `DEFAULT_RENDER_STEPS_LIMIT = 60`. -/
def DEFAULT_RENDER_STEPS_LIMIT : ℕ := 60

/-- Python's `%` for a positive real divisor: `x - p * floor (x / p)`. -/
noncomputable def fmod (x p : ℝ) : ℝ := x - p * ⌊x / p⌋

/-- Source lines 257-265.
```
def distance_angle(alpha, beta):
    phi = abs(beta - alpha) % (2 * np.pi)
    if phi > np.pi:
        return 2 * np.pi - phi
    else:
        return phi
``` -/
noncomputable def distance_angle (alpha beta : ℝ) : ℝ :=
  if fmod |beta - alpha| (2 * Real.pi) > Real.pi then
    2 * Real.pi - fmod |beta - alpha| (2 * Real.pi)
  else
    fmod |beta - alpha| (2 * Real.pi)

lemma fmod_nonneg (x : ℝ) {p : ℝ} (hp : 0 < p) : 0 ≤ fmod x p := by
  have h1 : (⌊x / p⌋ : ℝ) ≤ x / p := Int.floor_le _
  have h2 : p * (⌊x / p⌋ : ℝ) ≤ p * (x / p) :=
    mul_le_mul_of_nonneg_left h1 hp.le
  have h3 : p * (x / p) = x := by field_simp
  unfold fmod
  nlinarith

lemma fmod_lt (x : ℝ) {p : ℝ} (hp : 0 < p) : fmod x p < p := by
  have h1 : x / p < (⌊x / p⌋ : ℝ) + 1 := Int.lt_floor_add_one _
  have h2 : p * (x / p) < p * ((⌊x / p⌋ : ℝ) + 1) :=
    (mul_lt_mul_left hp).mpr h1
  have h3 : p * (x / p) = x := by field_simp
  unfold fmod
  nlinarith

lemma two_pi_pos : (0 : ℝ) < 2 * Real.pi := by positivity

lemma distance_angle_symm (alpha beta : ℝ) :
    distance_angle alpha beta = distance_angle beta alpha := by
  unfold distance_angle
  rw [abs_sub_comm]

lemma distance_angle_nonneg (alpha beta : ℝ) : 0 ≤ distance_angle alpha beta := by
  unfold distance_angle
  split
  · have h := fmod_lt |beta - alpha| two_pi_pos
    linarith
  · exact fmod_nonneg _ two_pi_pos

lemma distance_angle_le_pi (alpha beta : ℝ) :
    distance_angle alpha beta ≤ Real.pi := by
  unfold distance_angle
  split
  · next h => linarith
  · next h => linarith [not_lt.mp h]

lemma distance_angle_self (a : ℝ) : distance_angle a a = 0 := by
  have hfl : ⌊(0 : ℝ) / (2 * Real.pi)⌋ = 0 := by
    rw [zero_div, Int.floor_zero]
  have hmod : fmod |a - a| (2 * Real.pi) = 0 := by
    unfold fmod
    rw [sub_self, abs_zero, hfl]
    simp
  unfold distance_angle
  rw [sub_self, abs_zero] at hmod ⊢
  rw [hmod, if_neg]
  exact not_lt.mpr (le_of_lt Real.pi_pos)

lemma distance_angle_le_fmod (alpha beta : ℝ) :
    distance_angle alpha beta ≤ fmod |beta - alpha| (2 * Real.pi) := by
  unfold distance_angle
  split
  · next h => linarith
  · exact le_refl _

lemma distance_angle_le_compl (alpha beta : ℝ) :
    distance_angle alpha beta ≤ 2 * Real.pi - fmod |beta - alpha| (2 * Real.pi) := by
  unfold distance_angle
  split
  · exact le_refl _
  · next h => linarith [not_lt.mp h]

lemma distance_angle_eq_of_gt {alpha beta : ℝ}
    (h : fmod |beta - alpha| (2 * Real.pi) > Real.pi) :
    distance_angle alpha beta = 2 * Real.pi - fmod |beta - alpha| (2 * Real.pi) := by
  unfold distance_angle
  exact if_pos h

lemma distance_angle_eq_of_le {alpha beta : ℝ}
    (h : ¬ fmod |beta - alpha| (2 * Real.pi) > Real.pi) :
    distance_angle alpha beta = fmod |beta - alpha| (2 * Real.pi) := by
  unfold distance_angle
  exact if_neg h

lemma le_abs_add_two_pi_mul {φ d : ℝ} (hφ0 : 0 ≤ φ) (hφ : φ < 2 * Real.pi)
    (hd1 : d ≤ φ) (hd2 : d ≤ 2 * Real.pi - φ) (m : ℤ) :
    d ≤ |φ + 2 * Real.pi * m| := by
  rcases le_or_lt 0 (m : ℝ) with hm | hm
  · have h1 : 0 ≤ φ + 2 * Real.pi * m := by nlinarith [Real.pi_pos]
    rw [abs_of_nonneg h1]
    nlinarith [Real.pi_pos]
  · have hmz : m < 0 := by exact_mod_cast hm
    have hm1 : (m : ℝ) ≤ -1 := by
      have : m ≤ -1 := by omega
      exact_mod_cast this
    have h1 : φ + 2 * Real.pi * m ≤ φ - 2 * Real.pi := by nlinarith [Real.pi_pos]
    rw [abs_of_nonpos (by linarith)]
    nlinarith [Real.pi_pos]

lemma le_abs_core {d : ℝ} (D : ℝ) (m : ℤ)
    (hd1 : d ≤ fmod D (2 * Real.pi))
    (hd2 : d ≤ 2 * Real.pi - fmod D (2 * Real.pi)) :
    d ≤ |D + 2 * Real.pi * m| := by
  have hfmod : fmod D (2 * Real.pi)
      = D - 2 * Real.pi * ⌊D / (2 * Real.pi)⌋ := rfl
  have hφ0 := fmod_nonneg D two_pi_pos
  have hφlt := fmod_lt D two_pi_pos
  have key := le_abs_add_two_pi_mul hφ0 hφlt hd1 hd2 (⌊D / (2 * Real.pi)⌋ + m)
  have hval : fmod D (2 * Real.pi)
      + 2 * Real.pi * ((⌊D / (2 * Real.pi)⌋ + m : ℤ) : ℝ)
      = D + 2 * Real.pi * m := by
    push_cast
    linarith [hfmod]
  rwa [hval] at key

lemma distance_angle_le_shift (alpha beta : ℝ) (k : ℤ) :
    distance_angle alpha beta ≤ |beta - alpha + 2 * Real.pi * k| := by
  have hd1 := distance_angle_le_fmod alpha beta
  have hd2 := distance_angle_le_compl alpha beta
  rcases le_or_lt 0 (beta - alpha) with hba | hba
  · have habs : |beta - alpha| = beta - alpha := abs_of_nonneg hba
    rw [show beta - alpha + 2 * Real.pi * (k : ℝ)
        = |beta - alpha| + 2 * Real.pi * ((k : ℤ) : ℝ) from by linarith [habs]]
    exact le_abs_core _ k hd1 hd2
  · have habs : |beta - alpha| = -(beta - alpha) := abs_of_neg hba
    rw [show beta - alpha + 2 * Real.pi * (k : ℝ)
        = -(|beta - alpha| + 2 * Real.pi * ((-k : ℤ) : ℝ)) from by push_cast; linarith [habs]]
    rw [abs_neg]
    exact le_abs_core _ (-k) hd1 hd2

lemma attain_core (D : ℝ) :
    ∃ k : ℤ, (if fmod D (2 * Real.pi) > Real.pi then
        2 * Real.pi - fmod D (2 * Real.pi) else fmod D (2 * Real.pi))
      = |D + 2 * Real.pi * k| := by
  have hfmod : fmod D (2 * Real.pi)
      = D - 2 * Real.pi * ⌊D / (2 * Real.pi)⌋ := rfl
  have hφ0 := fmod_nonneg D two_pi_pos
  have hφlt := fmod_lt D two_pi_pos
  by_cases hphi : fmod D (2 * Real.pi) > Real.pi
  · rw [if_pos hphi]
    refine ⟨-(⌊D / (2 * Real.pi)⌋ + 1), ?_⟩
    have hval : D + 2 * Real.pi * ((-(⌊D / (2 * Real.pi)⌋ + 1) : ℤ) : ℝ)
        = fmod D (2 * Real.pi) - 2 * Real.pi := by
      push_cast
      linarith [hfmod]
    rw [hval, abs_of_nonpos (by linarith)]
    ring
  · rw [if_neg hphi]
    refine ⟨-⌊D / (2 * Real.pi)⌋, ?_⟩
    have hval : D + 2 * Real.pi * ((-⌊D / (2 * Real.pi)⌋ : ℤ) : ℝ)
        = fmod D (2 * Real.pi) := by
      push_cast
      linarith [hfmod]
    rw [hval, abs_of_nonneg hφ0]

lemma distance_angle_attained (alpha beta : ℝ) :
    ∃ k : ℤ, distance_angle alpha beta = |beta - alpha + 2 * Real.pi * k| := by
  have hunf : distance_angle alpha beta
      = (if fmod |beta - alpha| (2 * Real.pi) > Real.pi then
          2 * Real.pi - fmod |beta - alpha| (2 * Real.pi)
        else fmod |beta - alpha| (2 * Real.pi)) := rfl
  obtain ⟨k, hk⟩ := attain_core |beta - alpha|
  rcases le_or_lt 0 (beta - alpha) with hba | hba
  · have habs : |beta - alpha| = beta - alpha := abs_of_nonneg hba
    refine ⟨k, ?_⟩
    rw [show beta - alpha + 2 * Real.pi * (k : ℝ)
        = |beta - alpha| + 2 * Real.pi * ((k : ℤ) : ℝ) from by linarith [habs]]
    rw [hunf]
    exact hk
  · have habs : |beta - alpha| = -(beta - alpha) := abs_of_neg hba
    refine ⟨-k, ?_⟩
    rw [show beta - alpha + 2 * Real.pi * ((-k : ℤ) : ℝ)
        = -(|beta - alpha| + 2 * Real.pi * ((k : ℤ) : ℝ)) from by push_cast; linarith [habs]]
    rw [abs_neg, hunf]
    exact hk

/-- The simulator oracle.  `navigable` models
`env.sim.pathfinder.is_navigable` (line 330), `contact` models
`env.sim.contact_test(env.sim.robot.get_robot_sim_id())` (line 331) as a
function of the robot base pose (the only simulator state the script
mutates), and `stepPos` / `stepRot` model the translation and the rotation
angle of `base_vel_ctrl.integrate_transform(1 / env.sim.ctrl_freq,
rigid_state)` (lines 360-366) as functions of the current base pose and the
commanded linear and angular velocities. -/
structure Sim where
  navigable : Vec3 → Bool
  contact : Vec3 → ℝ → Bool
  stepPos : Vec3 → ℝ → ℝ → ℝ → Vec3
  stepRot : Vec3 → ℝ → ℝ → ℝ → ℝ

/-- The behaviourally relevant command line options (lines 445-496).
Options that never influence the modelled behaviour (fnames, cam res,
`--gfx`, `--load-actions`, ...) are omitted. -/
structure Args where
  no_render : Bool
  save_obs : Bool
  save_actions : Bool
  save_actions_count : ℤ
  add_ik : Bool

/-- The argparse defaults (lines 445-461, 484-489). -/
def defaultArgs : Args :=
  { no_render := false
    save_obs := false
    save_actions := false
    save_actions_count := 200
    add_ik := false }

/-- Source line 386: `has_visited_threshold_pos = 0.01`. -/
noncomputable def has_visited_threshold_pos : ℝ := 0.01

/-- Source line 387: `has_visited_threshold_rot = 0.01`. -/
noncomputable def has_visited_threshold_rot : ℝ := 0.01

/-- Source lines 393-397: the Euclidean distance
`(sum_i (pos_i - after_i) ** 2) ** 0.5` between two recorded positions. -/
noncomputable def posDist (p q : Vec3) : ℝ :=
  ((p.1 - q.1) ^ 2 + (p.2.1 - q.2.1) ^ 2 + (p.2.2 - q.2.2) ^ 2) ^ (0.5 : ℝ)

open scoped Classical in
/-- Source lines 391-404: scan `visit_pos_rot`, breaking at the first point
within both thresholds of the candidate pose `c`. -/
noncomputable def has_visited (visit : List Pose) (c : Pose) : Bool :=
  visit.any fun point =>
    decide (posDist point.1 c.1 ≤ has_visited_threshold_pos ∧
      distance_angle point.2 c.2 ≤ has_visited_threshold_rot)

/-- Source lines 406-409: append the candidate pose exactly when it was not
within both thresholds of a recorded pose. -/
noncomputable def nextVisit (visit : List Pose) (c : Pose) : List Pose :=
  if has_visited visit c then visit else visit ++ [c]

/-- Source lines 349-374: reset the base to the entry pose, scale the action
(`lin_vel = base_action[0] * 10`, `ang_vel = base_action[1] * 50`), integrate
the velocity control for one step, overwrite the Y component (index 1) of the
target translation with the entry Y component (line 369, where
`env.sim.robot.base_pos` still holds the entry position), and set the base
rotation to the target rotation angle. -/
noncomputable def trialPose (sim : Sim) (before : Pose) (base_action : ℤ × ℤ) : Pose :=
  (((sim.stepPos before.1 before.2 ((base_action.1 : ℝ) * 10) ((base_action.2 : ℝ) * 50)).1,
    before.1.2.1,
    (sim.stepPos before.1 before.2 ((base_action.1 : ℝ) * 10) ((base_action.2 : ℝ) * 50)).2.2),
   sim.stepRot before.1 before.2 ((base_action.1 : ℝ) * 10) ((base_action.2 : ℝ) * 50))

/-- Source line 347: `for base_action in [[0, 1], [1, 0]]`. -/
def base_actions : List (ℤ × ℤ) := [(0, 1), (1, 0)]

/-- The `for base_action in [[0, 1], [1, 0]]` loop body of `play_env`
(lines 346-412): starting from `ans = 1`, each iteration computes the
candidate pose from the entry pose `before`, deduplicates it against the
current visit list, appends it when distinct, recurses (`recur` is the
recursive call at one less fuel), and accumulates `ans += ...`.  A child
returning Python `None` would make `ans += ...` raise, so that run is not
modelled (`none`). -/
noncomputable def runLoop (sim : Sim) (before : Pose)
    (recur : Pose → List Pose → Bool → Option (Option ℕ × Pose × List Pose)) :
    List (ℤ × ℤ) → ℕ → Pose → List Pose → Option (Option ℕ × Pose × List Pose)
  | [], ans, stCur, visit => some (some ans, stCur, visit)
  | base_action :: rest, ans, _stCur, visit =>
    match recur (trialPose sim before base_action)
        (nextVisit visit (trialPose sim before base_action))
        (!has_visited visit (trialPose sim before base_action)) with
    | some (some n, stChild, visitChild) =>
        runLoop sim before recur rest (ans + n) stChild visitChild
    | _ => none

/-- Source lines 268-414, `play_env(env, args, config, level, visit_pos_rot,
flag_distinct)`.  The robot base pose is threaded explicitly as `st`
(`env.sim.robot.base_pos` / `base_rot`), the shared mutable `visit_pos_rot`
list as `visit`; the value returned by a call is paired with the final robot
pose and visit list.  `some (none, ..)` is the bare `return` of lines
301-303 ("A", reachable because `all_arm_actions` is always empty at line
301, so the guard is `args.save_actions and 0 > args.save_actions_count`)
and lines 305-307 ("B", whose guard `update_idx > render_steps_limit` is
`0 > 60` and never fires); `some (some n, ..)` is `return 0` (lines 333-341)
or `return ans` (line 414).  The unused `config` parameter is dropped;
`level` only feeds the `level % 100` prints. -/
noncomputable def play_env (sim : Sim) (args : Args) :
    ℕ → ℕ → Pose → List Pose → Bool → Option (Option ℕ × Pose × List Pose)
  | 0, _, _, _, _ => none
  | fuel + 1, level, st, visit, flag_distinct =>
    if args.save_actions = true ∧ (0 : ℤ) > args.save_actions_count then
      some (none, st, visit)
    else if args.no_render = true ∧ 0 > DEFAULT_RENDER_STEPS_LIMIT then
      some (none, st, visit)
    else if sim.navigable st.1 = false ∨ sim.contact st.1 st.2 = true then
      some (some 0, st, visit)
    else if flag_distinct = false then
      some (some 0, st, visit)
    else
      runLoop sim st (fun c v f => play_env sim args fuel (level + 1) c v f)
        base_actions 1 st visit

/-- The pose checks of lines 330-336 as a predicate of the entry pose. -/
def checksPass (sim : Sim) (st : Pose) : Bool :=
  sim.navigable st.1 && !sim.contact st.1 st.2

/-- How many recorded poses pass the navigability and contact checks. -/
def countPass (sim : Sim) (l : List Pose) : ℕ :=
  (l.filter fun e => checksPass sim e).length

/-- Two recorded poses are separated when they differ by more than the
position threshold in Euclidean distance or by more than the rotation
threshold in angular distance. -/
def SepPose (e1 e2 : Pose) : Prop :=
  has_visited_threshold_pos < posDist e1.1 e2.1 ∨
  has_visited_threshold_rot < distance_angle e1.2 e2.2

lemma play_env_zero (sim : Sim) (args : Args) (level : ℕ) (st : Pose)
    (visit : List Pose) (flag : Bool) :
    play_env sim args 0 level st visit flag = none := rfl

lemma play_env_succ (sim : Sim) (args : Args) (fuel level : ℕ) (st : Pose)
    (visit : List Pose) (flag : Bool) :
    play_env sim args (fuel + 1) level st visit flag =
      if args.save_actions = true ∧ (0 : ℤ) > args.save_actions_count then
        some (none, st, visit)
      else if args.no_render = true ∧ 0 > DEFAULT_RENDER_STEPS_LIMIT then
        some (none, st, visit)
      else if sim.navigable st.1 = false ∨ sim.contact st.1 st.2 = true then
        some (some 0, st, visit)
      else if flag = false then
        some (some 0, st, visit)
      else
        runLoop sim st (fun c v f => play_env sim args fuel (level + 1) c v f)
          base_actions 1 st visit := by
  rw [play_env]

lemma render_limit_guard_false (args : Args) :
    ¬ (args.no_render = true ∧ 0 > DEFAULT_RENDER_STEPS_LIMIT) := by
  rintro ⟨-, h⟩
  simp [DEFAULT_RENDER_STEPS_LIMIT] at h

lemma play_env_save_actions (sim : Sim) (args : Args) (fuel level : ℕ)
    (st : Pose) (visit : List Pose) (flag : Bool)
    (hA : args.save_actions = true ∧ (0 : ℤ) > args.save_actions_count) :
    play_env sim args (fuel + 1) level st visit flag = some (none, st, visit) := by
  rw [play_env_succ, if_pos hA]

lemma play_env_fail (sim : Sim) (args : Args) (fuel level : ℕ) (st : Pose)
    (visit : List Pose) (flag : Bool)
    (hA : ¬ (args.save_actions = true ∧ (0 : ℤ) > args.save_actions_count))
    (h : sim.navigable st.1 = false ∨ sim.contact st.1 st.2 = true ∨ flag = false) :
    play_env sim args (fuel + 1) level st visit flag = some (some 0, st, visit) := by
  rw [play_env_succ, if_neg hA, if_neg (render_limit_guard_false args)]
  by_cases hsim : sim.navigable st.1 = false ∨ sim.contact st.1 st.2 = true
  · rw [if_pos hsim]
  · rw [if_neg hsim, if_pos]
    rcases h with h | h | h
    · exact absurd (Or.inl h) hsim
    · exact absurd (Or.inr h) hsim
    · exact h

lemma play_env_proceed (sim : Sim) (args : Args) (fuel level : ℕ) (st : Pose)
    (visit : List Pose) (flag : Bool)
    (hA : ¬ (args.save_actions = true ∧ (0 : ℤ) > args.save_actions_count))
    (hnav : sim.navigable st.1 = true) (hcon : sim.contact st.1 st.2 = false)
    (hflag : flag = true) :
    play_env sim args (fuel + 1) level st visit flag =
      runLoop sim st (fun c v f => play_env sim args fuel (level + 1) c v f)
        base_actions 1 st visit := by
  rw [play_env_succ, if_neg hA, if_neg (render_limit_guard_false args),
    if_neg (by simp [hnav, hcon]), if_neg (by simp [hflag])]

lemma runLoop_two_elim (sim : Sim) (before : Pose)
    (recur : Pose → List Pose → Bool → Option (Option ℕ × Pose × List Pose))
    (ans : ℕ) (stCur : Pose) (visit : List Pose) (n : ℕ) (st' : Pose) (v' : List Pose)
    (h : runLoop sim before recur base_actions ans stCur visit = some (some n, st', v')) :
    ∃ n1 st1 v1 n2 st2 v2,
      recur (trialPose sim before (0, 1)) (nextVisit visit (trialPose sim before (0, 1)))
          (!has_visited visit (trialPose sim before (0, 1))) = some (some n1, st1, v1) ∧
      recur (trialPose sim before (1, 0)) (nextVisit v1 (trialPose sim before (1, 0)))
          (!has_visited v1 (trialPose sim before (1, 0))) = some (some n2, st2, v2) ∧
      n = ans + n1 + n2 ∧ st' = st2 ∧ v' = v2 := by
  rw [show base_actions = [(0, 1), (1, 0)] from rfl] at h
  simp only [runLoop] at h
  split at h
  · next n1 st1 v1 heq1 =>
    split at h
    · next n2 st2 v2 heq2 =>
      rw [Option.some.injEq, Prod.mk.injEq, Option.some.injEq, Prod.mk.injEq] at h
      obtain ⟨hn, hst, hv⟩ := h
      exact ⟨n1, st1, v1, n2, st2, v2, heq1, heq2, hn.symm, hst.symm, hv.symm⟩
    · next => exact absurd h (by simp)
  · next => exact absurd h (by simp)

lemma play_env_proceed_elim (sim : Sim) (args : Args) (fuel level : ℕ) (st : Pose)
    (visit : List Pose) (flag : Bool) (n : ℕ) (st' : Pose) (v' : List Pose)
    (hnav : sim.navigable st.1 = true) (hcon : sim.contact st.1 st.2 = false)
    (hflag : flag = true)
    (h : play_env sim args (fuel + 1) level st visit flag = some (some n, st', v')) :
    ∃ n1 st1 v1 n2 st2 v2,
      play_env sim args fuel (level + 1) (trialPose sim st (0, 1))
          (nextVisit visit (trialPose sim st (0, 1)))
          (!has_visited visit (trialPose sim st (0, 1))) = some (some n1, st1, v1) ∧
      play_env sim args fuel (level + 1) (trialPose sim st (1, 0))
          (nextVisit v1 (trialPose sim st (1, 0)))
          (!has_visited v1 (trialPose sim st (1, 0))) = some (some n2, st2, v2) ∧
      n = 1 + n1 + n2 ∧ st' = st2 ∧ v' = v2 := by
  by_cases hA : args.save_actions = true ∧ (0 : ℤ) > args.save_actions_count
  · rw [play_env_save_actions sim args fuel level st visit flag hA] at h
    simp at h
  · rw [play_env_proceed sim args fuel level st visit flag hA hnav hcon hflag] at h
    exact runLoop_two_elim sim st _ 1 st visit n st' v' h

lemma has_visited_eq_false_iff (visit : List Pose) (c : Pose) :
    has_visited visit c = false ↔
      ∀ point ∈ visit,
        ¬ (posDist point.1 c.1 ≤ has_visited_threshold_pos ∧
           distance_angle point.2 c.2 ≤ has_visited_threshold_rot) := by
  simp [has_visited]

lemma sep_of_not_visited {visit : List Pose} {c : Pose}
    (h : has_visited visit c = false) :
    ∀ point ∈ visit, SepPose point c := by
  intro point hp
  have hno := (has_visited_eq_false_iff visit c).mp h point hp
  unfold SepPose
  rcases not_and_or.mp hno with h1 | h1
  · exact Or.inl (not_le.mp h1)
  · exact Or.inr (not_le.mp h1)

lemma nextVisit_eq (visit : List Pose) (c : Pose) :
    nextVisit visit c = visit ++ (if has_visited visit c then [] else [c]) := by
  unfold nextVisit
  split <;> simp

lemma pairwise_nextVisit {visit : List Pose} (c : Pose)
    (h : List.Pairwise SepPose visit) :
    List.Pairwise SepPose (nextVisit visit c) := by
  unfold nextVisit
  split
  · exact h
  · next hnv =>
    rw [List.pairwise_append]
    refine ⟨h, by simp, ?_⟩
    intro a ha b hb
    rw [List.mem_singleton] at hb
    subst hb
    exact sep_of_not_visited (Bool.eq_false_iff.mpr hnv) a ha

lemma runLoop_two_elim_r (sim : Sim) (before : Pose)
    (recur : Pose → List Pose → Bool → Option (Option ℕ × Pose × List Pose))
    (ans : ℕ) (stCur : Pose) (visit : List Pose) (r : Option ℕ) (st' : Pose)
    (v' : List Pose)
    (h : runLoop sim before recur base_actions ans stCur visit = some (r, st', v')) :
    ∃ n1 st1 v1 n2 st2 v2,
      recur (trialPose sim before (0, 1)) (nextVisit visit (trialPose sim before (0, 1)))
          (!has_visited visit (trialPose sim before (0, 1))) = some (some n1, st1, v1) ∧
      recur (trialPose sim before (1, 0)) (nextVisit v1 (trialPose sim before (1, 0)))
          (!has_visited v1 (trialPose sim before (1, 0))) = some (some n2, st2, v2) ∧
      r = some (ans + n1 + n2) ∧ st' = st2 ∧ v' = v2 := by
  rw [show base_actions = [(0, 1), (1, 0)] from rfl] at h
  simp only [runLoop] at h
  split at h
  · next n1 st1 v1 heq1 =>
    split at h
    · next n2 st2 v2 heq2 =>
      rw [Option.some.injEq, Prod.mk.injEq, Prod.mk.injEq] at h
      obtain ⟨hn, hst, hv⟩ := h
      exact ⟨n1, st1, v1, n2, st2, v2, heq1, heq2, hn.symm, hst.symm, hv.symm⟩
    · next => exact absurd h (by simp)
  · next => exact absurd h (by simp)

lemma play_env_pairwise_aux (sim : Sim) (args : Args) :
    ∀ fuel level st visit flag r st' v',
      play_env sim args fuel level st visit flag = some (r, st', v') →
      List.Pairwise SepPose visit → List.Pairwise SepPose v' := by
  intro fuel
  induction fuel with
  | zero =>
    intro level st visit flag r st' v' h _
    rw [play_env_zero] at h
    exact absurd h (by simp)
  | succ fuel IH =>
    intro level st visit flag r st' v' h hp
    rw [play_env_succ] at h
    split at h
    · rw [Option.some.injEq, Prod.mk.injEq, Prod.mk.injEq] at h
      rw [← h.2.2]
      exact hp
    · split at h
      · rw [Option.some.injEq, Prod.mk.injEq, Prod.mk.injEq] at h
        rw [← h.2.2]
        exact hp
      · split at h
        · rw [Option.some.injEq, Prod.mk.injEq, Prod.mk.injEq] at h
          rw [← h.2.2]
          exact hp
        · split at h
          · rw [Option.some.injEq, Prod.mk.injEq, Prod.mk.injEq] at h
            rw [← h.2.2]
            exact hp
          · obtain ⟨n1, st1, v1, n2, st2, v2, hc1, hc2, -, -, hv⟩ :=
              runLoop_two_elim_r sim st _ 1 st visit r st' v' h
            have hp1 : List.Pairwise SepPose v1 :=
              IH _ _ _ _ _ _ _ hc1 (pairwise_nextVisit _ hp)
            have hp2 : List.Pairwise SepPose v2 :=
              IH _ _ _ _ _ _ _ hc2 (pairwise_nextVisit _ hp1)
            rw [hv]
            exact hp2

lemma countPass_append (sim : Sim) (l1 l2 : List Pose) :
    countPass sim (l1 ++ l2) = countPass sim l1 + countPass sim l2 := by
  simp [countPass, List.filter_append]

lemma countPass_local (sim : Sim) (visit : List Pose) (c : Pose) :
    countPass sim (if has_visited visit c then [] else [c])
      = if (checksPass sim c && !has_visited visit c) = true then 1 else 0 := by
  cases hv : has_visited visit c <;> cases hcp : checksPass sim c <;>
    simp [countPass, hv, hcp, List.filter]

lemma play_env_count_aux (sim : Sim) (args : Args) :
    ∀ fuel level st visit flag n st' v',
      play_env sim args fuel level st visit flag = some (some n, st', v') →
      ∃ newl, v' = visit ++ newl ∧
        n = (if (checksPass sim st && flag) = true then 1 else 0) + countPass sim newl := by
  intro fuel
  induction fuel with
  | zero =>
    intro level st visit flag n st' v' h
    rw [play_env_zero] at h
    exact absurd h (by simp)
  | succ fuel IH =>
    intro level st visit flag n st' v' h
    rw [play_env_succ] at h
    split at h
    · simp only [Option.some.injEq, Prod.mk.injEq] at h
      exact absurd h.1 (by simp)
    · split at h
      · simp only [Option.some.injEq, Prod.mk.injEq] at h
        exact absurd h.1 (by simp)
      · split at h
        · next hsim =>
          simp only [Option.some.injEq, Prod.mk.injEq] at h
          obtain ⟨hn, hst, hv⟩ := h
          have hcp : checksPass sim st = false := by
            rcases hsim with h1 | h1 <;> simp [checksPass, h1]
          refine ⟨[], by rw [List.append_nil]; exact hv.symm, ?_⟩
          rw [← hn]
          simp [hcp, countPass]
        · split at h
          · next hfl =>
            simp only [Option.some.injEq, Prod.mk.injEq] at h
            obtain ⟨hn, hst, hv⟩ := h
            refine ⟨[], by rw [List.append_nil]; exact hv.symm, ?_⟩
            rw [← hn]
            simp [hfl, countPass]
          · next hsim hfl =>
            obtain ⟨n1, st1, v1, n2, st2, v2, hc1, hc2, hn, hst, hv⟩ :=
              runLoop_two_elim sim st _ 1 st visit n st' v' h
            obtain ⟨new1, hnew1, hcount1⟩ := IH _ _ _ _ _ _ _ hc1
            obtain ⟨new2, hnew2, hcount2⟩ := IH _ _ _ _ _ _ _ hc2
            rw [not_or] at hsim
            obtain ⟨h1, h2⟩ := hsim
            simp only [Bool.not_eq_false] at h1
            simp only [Bool.not_eq_true] at h2
            simp only [Bool.not_eq_false] at hfl
            have hloc : (checksPass sim st && flag) = true := by
              simp [checksPass, h1, h2, hfl]
            refine ⟨(if has_visited visit (trialPose sim st (0, 1)) then []
                else [trialPose sim st (0, 1)]) ++ new1 ++
                ((if has_visited v1 (trialPose sim st (1, 0)) then []
                  else [trialPose sim st (1, 0)]) ++ new2), ?_, ?_⟩
            · rw [hv, hnew2, nextVisit_eq, hnew1, nextVisit_eq]
              simp [List.append_assoc]
            · rw [hn, hcount1, hcount2, countPass_append, countPass_append,
                countPass_append, countPass_local, countPass_local, hloc, if_pos rfl]
              ring

lemma play_env_zero_result_elim (sim : Sim) (args : Args) (fuel level : ℕ)
    (st : Pose) (visit : List Pose) (flag : Bool) (st' : Pose) (v' : List Pose)
    (h : play_env sim args (fuel + 1) level st visit flag = some (some 0, st', v')) :
    (sim.navigable st.1 = false ∨ sim.contact st.1 st.2 = true ∨ flag = false) ∧
      st' = st ∧ v' = visit := by
  rw [play_env_succ] at h
  split at h
  · simp only [Option.some.injEq, Prod.mk.injEq] at h
    exact absurd h.1 (by simp)
  · split at h
    · simp only [Option.some.injEq, Prod.mk.injEq] at h
      exact absurd h.1 (by simp)
    · split at h
      · next hsim =>
        simp only [Option.some.injEq, Prod.mk.injEq] at h
        refine ⟨?_, h.2.1.symm, h.2.2.symm⟩
        rcases hsim with h1 | h1
        · exact Or.inl h1
        · exact Or.inr (Or.inl h1)
      · split at h
        · next hfl =>
          simp only [Option.some.injEq, Prod.mk.injEq] at h
          exact ⟨Or.inr (Or.inr hfl), h.2.1.symm, h.2.2.symm⟩
        · obtain ⟨n1, st1, v1, n2, st2, v2, hc1, hc2, hn, hst, hv⟩ :=
            runLoop_two_elim sim st _ 1 st visit 0 st' v' h
          omega

/-- File artifacts the script could persist. -/
inductive Artifact
  | pickle
  | png
  | mp4
  | actionsFile
  deriving DecidableEq

/-- The files written by the `__main__` block after the environment closes
(lines 557-569): `pickle.dump([difference, total_point, visited_list], f)`
into the hard-coded `SAVE_NAME + "_visit_points.pkl"` path, then
`plt.savefig(... + "_area.png")`.  Both writes are unconditional — no branch
of `__main__` or of `play_env` writes any other file (the parsed
`--save-obs`, `--save-obs-fname`, `--save-actions-fname` options are never
read again, and no video or trajectory saving code is reachable), so the
artifact list does not depend on the arguments. -/
def mainArtifacts (_args : Args) : List Artifact := [Artifact.pickle, Artifact.png]

/-- The exceptions the startup code can raise before the environment is
constructed. -/
inductive StartupErr
  | importErr
  | valueErr
  deriving DecidableEq

/-- The `__main__` prologue, lines 504-535: after parsing, raise
`ImportError` when PyGame is unavailable and rendering is on (lines
505-508); later raise `ValueError` when `--add-ik` is given and the task
config has no `ARM_ACTION` entry (lines 526-530).  `hasArmAction` is
whether `"ARM_ACTION" in config.TASK.ACTIONS`. -/
def mainStartup (pygameAvailable hasArmAction : Bool) (args : Args) :
    Option StartupErr :=
  if ¬ pygameAvailable ∧ ¬ args.no_render then some StartupErr.importErr
  else if args.add_ik ∧ ¬ hasArmAction then some StartupErr.valueErr
  else none

/-- How far `__main__` gets: either one of the startup raises fires, or
control reaches `habitat.Env(config=config)` (line 540). -/
inductive MainPhase
  | raised (e : StartupErr)
  | envConstructed
  deriving DecidableEq

/-- Lines 504-540: the environment is constructed exactly when no startup
exception is raised first. -/
def mainPhase (pygameAvailable hasArmAction : Bool) (args : Args) : MainPhase :=
  match mainStartup pygameAvailable hasArmAction args with
  | some e => MainPhase.raised e
  | none => MainPhase.envConstructed

/-- A simulator whose navigability check always fails. -/
def simFail : Sim :=
  { navigable := fun _ => false
    contact := fun _ _ => false
    stepPos := fun p _ _ _ => p
    stepRot := fun _ r _ _ => r }

/-- A simulator where every pose is navigable and contact-free. -/
def simT : Sim :=
  { navigable := fun _ => true
    contact := fun _ _ => false
    stepPos := fun p _ _ _ => p
    stepRot := fun _ r _ _ => r }

open scoped Classical in
/-- A simulator where every pose is navigable, contact fires exactly at
rotation angle 1, position integration is the identity and the target
rotation is always 1. -/
noncomputable def simW : Sim :=
  { navigable := fun _ => true
    contact := fun _ r => decide (r = 1)
    stepPos := fun p _ _ _ => p
    stepRot := fun _ _ _ _ => 1 }

/-- The origin pose. -/
noncomputable def pose0 : Pose := (((0 : ℝ), (0 : ℝ), (0 : ℝ)), (0 : ℝ))

/-- The candidate pose `simW` produces from `pose0` for either action. -/
noncomputable def poseW : Pose := (((0 : ℝ), (0 : ℝ), (0 : ℝ)), (1 : ℝ))

/-- `--save-actions` with a negative `--save-actions-count`. -/
def argsA : Args := { defaultArgs with save_actions := true, save_actions_count := -1 }

/-- `--no-render`. -/
def argsNR : Args := { defaultArgs with no_render := true }

/-- `--add-ik`. -/
def argsIK : Args := { defaultArgs with add_ik := true }

lemma default_guard_false :
    ¬ (defaultArgs.save_actions = true ∧ (0 : ℤ) > defaultArgs.save_actions_count) := by
  simp [defaultArgs]

lemma posDist_self (v : Vec3) : posDist v v = 0 := by
  unfold posDist
  rw [show (v.1 - v.1) ^ 2 + (v.2.1 - v.2.1) ^ 2 + (v.2.2 - v.2.2) ^ 2 = (0 : ℝ) by ring]
  exact Real.zero_rpow (by norm_num)

lemma has_visited_self (c : Pose) (visit : List Pose) (hmem : c ∈ visit) :
    has_visited visit c = true := by
  unfold has_visited
  rw [List.any_eq_true]
  refine ⟨c, hmem, ?_⟩
  rw [decide_eq_true_eq]
  constructor
  · rw [posDist_self]
    norm_num [has_visited_threshold_pos]
  · rw [distance_angle_self]
    norm_num [has_visited_threshold_rot]

lemma runLoop_nil_eq (sim : Sim) (before : Pose)
    (recur : Pose → List Pose → Bool → Option (Option ℕ × Pose × List Pose))
    (ans : ℕ) (stCur : Pose) (visit : List Pose) :
    runLoop sim before recur [] ans stCur visit = some (some ans, stCur, visit) := rfl

lemma runLoop_cons_eq (sim : Sim) (before : Pose)
    (recur : Pose → List Pose → Bool → Option (Option ℕ × Pose × List Pose))
    (a : ℤ × ℤ) (rest : List (ℤ × ℤ)) (ans : ℕ) (stCur : Pose)
    (visit : List Pose) (n1 : ℕ) (st1 : Pose) (v1 : List Pose)
    (hchild : recur (trialPose sim before a) (nextVisit visit (trialPose sim before a))
        (!has_visited visit (trialPose sim before a)) = some (some n1, st1, v1)) :
    runLoop sim before recur (a :: rest) ans stCur visit
      = runLoop sim before recur rest (ans + n1) st1 v1 := by
  simp only [runLoop, hchild]

lemma simFail_run (fuel level : ℕ) (st : Pose) (visit : List Pose) (flag : Bool) :
    play_env simFail defaultArgs (fuel + 1) level st visit flag
      = some (some 0, st, visit) :=
  play_env_fail _ _ _ _ _ _ _ default_guard_false (Or.inl rfl)

lemma simT_repeat_run (fuel level : ℕ) (st : Pose) (visit : List Pose) :
    play_env simT defaultArgs (fuel + 1) level st visit false
      = some (some 0, st, visit) :=
  play_env_fail _ _ _ _ _ _ _ default_guard_false (Or.inr (Or.inr rfl))

lemma simW_trial (a : ℤ × ℤ) : trialPose simW pose0 a = poseW := rfl

lemma simW_contact0 : simW.contact pose0.1 pose0.2 = false :=
  decide_eq_false (by norm_num [pose0])

lemma simW_contact1 : simW.contact poseW.1 poseW.2 = true :=
  decide_eq_true (by norm_num [poseW])

lemma simW_child_true (fuel level : ℕ) (visit : List Pose) :
    play_env simW defaultArgs (fuel + 1) level poseW visit true
      = some (some 0, poseW, visit) :=
  play_env_fail _ _ _ _ _ _ _ default_guard_false (Or.inr (Or.inl simW_contact1))

lemma simW_child_false (fuel level : ℕ) (visit : List Pose) :
    play_env simW defaultArgs (fuel + 1) level poseW visit false
      = some (some 0, poseW, visit) :=
  play_env_fail _ _ _ _ _ _ _ default_guard_false (Or.inr (Or.inr rfl))

lemma nextVisit_nil (c : Pose) : nextVisit [] c = [c] := by
  simp [nextVisit_eq, has_visited]

lemma nextVisit_mem (c : Pose) (visit : List Pose) (hmem : c ∈ visit) :
    nextVisit visit c = visit := by
  rw [nextVisit_eq, has_visited_self c visit hmem]
  simp

lemma simW_run :
    play_env simW defaultArgs 2 0 pose0 [] true = some (some 1, poseW, [poseW]) := by
  rw [show (2 : ℕ) = 1 + 1 from rfl]
  rw [play_env_proceed simW defaultArgs 1 0 pose0 [] true default_guard_false rfl
    simW_contact0 rfl]
  rw [show base_actions = [(0, 1), (1, 0)] from rfl]
  rw [runLoop_cons_eq simW pose0 _ (0, 1) [(1, 0)] 1 pose0 [] 0 poseW [poseW] ?h1]
  case h1 =>
    rw [simW_trial, nextVisit_nil]
    rw [show has_visited [] poseW = false from rfl]
    exact simW_child_true 0 1 [poseW]
  rw [runLoop_cons_eq simW pose0 _ (1, 0) [] (1 + 0) poseW [poseW] 0 poseW [poseW] ?h2]
  case h2 =>
    rw [simW_trial, nextVisit_mem poseW [poseW] (by simp),
      has_visited_self poseW [poseW] (by simp)]
    exact simW_child_false 0 1 [poseW]
  rw [runLoop_nil_eq]

lemma nextVisit_append_iff (visit : List Pose) (c : Pose) :
    nextVisit visit c = visit ++ [c] ↔ has_visited visit c = false := by
  constructor
  · intro h
    rw [nextVisit_eq] at h
    have h2 : (if has_visited visit c then ([] : List Pose) else [c]) = [c] :=
      List.append_cancel_left h
    by_contra hne
    have ht : has_visited visit c = true := by
      revert hne
      cases has_visited visit c <;> simp
    rw [ht] at h2
    simp at h2
  · intro h
    rw [nextVisit_eq, h]
    simp

/-- C9: `distance_angle` is symmetric, its value always lies in the closed
interval `[0, pi]`, and it equals the shorter circular distance between the
two angles: it is a lower bound of the family `|beta - alpha + 2 pi k|`
over all integer shifts `k` and is attained by one of them. -/
theorem distance_angle_shorter_circular (alpha beta : ℝ) :
    distance_angle alpha beta = distance_angle beta alpha ∧
    0 ≤ distance_angle alpha beta ∧
    distance_angle alpha beta ≤ Real.pi ∧
    (∀ k : ℤ, distance_angle alpha beta ≤ |beta - alpha + 2 * Real.pi * k|) ∧
    (∃ k : ℤ, distance_angle alpha beta = |beta - alpha + 2 * Real.pi * k|) :=
  ⟨distance_angle_symm alpha beta, distance_angle_nonneg alpha beta,
    distance_angle_le_pi alpha beta, distance_angle_le_shift alpha beta,
    distance_angle_attained alpha beta⟩

/-- C1 counterexample: when `--save-actions` is given with a negative
`--save-actions-count`, a `play_env` call whose base pose fails the
navigability check returns Python `None` (lines 301-303, modelled
`some (none, ..)`) instead of 0, so the claimed return behaviour does not
hold for every call. -/
theorem play_env_save_actions_returns_none :
    play_env simFail argsA 1 0 pose0 [] true = some (none, pose0, []) ∧
    simFail.navigable pose0.1 = false :=
  ⟨play_env_save_actions simFail argsA 0 0 pose0 [] true ⟨rfl, by decide⟩, rfl⟩

/-- C1 (amended): provided the `--save-actions` early exit does not fire,
every `play_env` call returns 0 when the base pose fails the navigability
check, the contact test reports contact, or the pose was flagged as a
repeat; otherwise a call returning a count returns 1 plus the sum of the
two recursive results; and any returned count equals the number of poses
recorded during the call that pass the navigability and contact checks,
plus one for the entry pose when it passes all checks — so the top-level
call counts the distinct navigable base poses discovered. -/
theorem play_env_counts_distinct_navigable (sim : Sim) (args : Args)
    (fuel level : ℕ) (st : Pose) (visit : List Pose) (flag : Bool)
    (hA : ¬ (args.save_actions = true ∧ (0 : ℤ) > args.save_actions_count)) :
    ((sim.navigable st.1 = false ∨ sim.contact st.1 st.2 = true ∨ flag = false) →
      play_env sim args (fuel + 1) level st visit flag = some (some 0, st, visit)) ∧
    (∀ n st' v',
      play_env sim args (fuel + 1) level st visit flag = some (some n, st', v') →
      (∃ newl, v' = visit ++ newl ∧
        n = (if (checksPass sim st && flag) = true then 1 else 0) + countPass sim newl) ∧
      (sim.navigable st.1 = true → sim.contact st.1 st.2 = false → flag = true →
        ∃ n1 st1 v1 n2 st2 v2,
          play_env sim args fuel (level + 1) (trialPose sim st (0, 1))
              (nextVisit visit (trialPose sim st (0, 1)))
              (!has_visited visit (trialPose sim st (0, 1))) = some (some n1, st1, v1) ∧
          play_env sim args fuel (level + 1) (trialPose sim st (1, 0))
              (nextVisit v1 (trialPose sim st (1, 0)))
              (!has_visited v1 (trialPose sim st (1, 0))) = some (some n2, st2, v2) ∧
          n = 1 + n1 + n2 ∧ st' = st2 ∧ v' = v2)) := by
  constructor
  · intro h
    exact play_env_fail sim args fuel level st visit flag hA h
  · intro n st' v' h
    refine ⟨play_env_count_aux sim args (fuel + 1) level st visit flag n st' v' h, ?_⟩
    intro hnav hcon hflag
    exact play_env_proceed_elim sim args fuel level st visit flag n st' v' hnav hcon hflag h

/-- C1 witness: the amended theorem applied to a concrete simulator whose
navigability check fails at the origin pose. -/
theorem play_env_counts_distinct_navigable_witness :
    play_env simFail defaultArgs (0 + 1) 0 pose0 [] true = some (some 0, pose0, []) :=
  (play_env_counts_distinct_navigable simFail defaultArgs 0 0 pose0 [] true
    default_guard_false).1 (Or.inl rfl)

/-- C4 counterexample: a call at a navigable, contact-free base pose whose
`flag_distinct` is false returns without recursing (it returns 0 already at
fuel 1), so not every non-recursing return is caused by non-navigability or
contact. -/
theorem play_env_repeat_returns_without_recursing :
    play_env simT defaultArgs 1 0 pose0 [] false = some (some 0, pose0, []) ∧
    simT.navigable pose0.1 = true ∧ simT.contact pose0.1 pose0.2 = false :=
  ⟨simT_repeat_run 0 0 pose0 [], rfl, rfl⟩

/-- C4 (amended): outside the `--save-actions` early exit, a `play_env`
call returns the count 0 — without recursing and leaving the robot pose and
the visit list untouched — exactly when the base pose is non-navigable, the
robot is in contact, or the pose was flagged as a repeat; a call passing all
three checks returns a strictly positive count, so the recursion is bounded
by these three checks. -/
theorem play_env_zero_iff_check_fails (sim : Sim) (args : Args)
    (fuel level : ℕ) (st : Pose) (visit : List Pose) (flag : Bool)
    (st' : Pose) (v' : List Pose)
    (hA : ¬ (args.save_actions = true ∧ (0 : ℤ) > args.save_actions_count)) :
    play_env sim args (fuel + 1) level st visit flag = some (some 0, st', v') ↔
      ((sim.navigable st.1 = false ∨ sim.contact st.1 st.2 = true ∨ flag = false) ∧
        st' = st ∧ v' = visit) := by
  constructor
  · exact play_env_zero_result_elim sim args fuel level st visit flag st' v'
  · rintro ⟨h, rfl, rfl⟩
    exact play_env_fail _ _ _ _ _ _ _ hA h

/-- C4 witness: the amended theorem applied to a concrete non-navigable
pose, at fuel 1 where no recursion is possible. -/
theorem play_env_zero_iff_check_fails_witness :
    play_env simFail defaultArgs (0 + 1) 1 pose0 [] true = some (some 0, pose0, []) :=
  (play_env_zero_iff_check_fails simFail defaultArgs 0 1 pose0 [] true pose0 []
    default_guard_false).mpr ⟨Or.inl rfl, rfl, rfl⟩

/-- C2: a candidate pose is appended to the visit list exactly when no
already-recorded pose lies within both the 0.01 position threshold and the
0.01 rotation threshold of it; consequently, whenever the visit list is
pairwise separated on entry (any two entries differ by more than 0.01 in
Euclidean position distance or by more than 0.01 in angular distance), the
visit list is still pairwise separated whenever `play_env` returns. -/
theorem play_env_visit_pairwise_separated (sim : Sim) (args : Args)
    (fuel level : ℕ) (st : Pose) (visit : List Pose) (flag : Bool)
    (r : Option ℕ) (st' : Pose) (v' : List Pose)
    (hp : List.Pairwise SepPose visit)
    (h : play_env sim args fuel level st visit flag = some (r, st', v')) :
    (∀ c vis, nextVisit vis c = vis ++ [c] ↔
      ∀ point ∈ vis,
        ¬ (posDist point.1 c.1 ≤ has_visited_threshold_pos ∧
           distance_angle point.2 c.2 ≤ has_visited_threshold_rot)) ∧
    List.Pairwise SepPose v' := by
  constructor
  · intro c vis
    rw [nextVisit_append_iff, has_visited_eq_false_iff]
  · exact play_env_pairwise_aux sim args fuel level st visit flag r st' v' h hp

/-- C2 witness: the theorem applied to a concrete completed run that records
one pose starting from an empty visit list. -/
theorem play_env_visit_pairwise_separated_witness :
    (∀ c vis, nextVisit vis c = vis ++ [c] ↔
      ∀ point ∈ vis,
        ¬ (posDist point.1 c.1 ≤ has_visited_threshold_pos ∧
           distance_angle point.2 c.2 ≤ has_visited_threshold_rot)) ∧
    List.Pairwise SepPose [poseW] :=
  play_env_visit_pairwise_separated simW defaultArgs 2 0 pose0 [] true
    (some 1) poseW [poseW] (by simp) simW_run

/-- C3: a proceeding `play_env` step tries exactly the two fixed discrete
base actions `(0, 1)` and `(1, 0)` of `base_actions`, each scaled to the
velocities `(a.1 * 10, a.2 * 50)` fed to the integrator, and performs
exactly two recursive calls — one per action, in that order — so the
recursion has branching factor two. -/
theorem play_env_two_fixed_actions (sim : Sim) (args : Args)
    (fuel level : ℕ) (st : Pose) (visit : List Pose) (flag : Bool)
    (n : ℕ) (st' : Pose) (v' : List Pose)
    (hnav : sim.navigable st.1 = true) (hcon : sim.contact st.1 st.2 = false)
    (hflag : flag = true)
    (h : play_env sim args (fuel + 1) level st visit flag = some (some n, st', v')) :
    base_actions = [(0, 1), (1, 0)] ∧
    (∀ a : ℤ × ℤ, trialPose sim st a =
      (((sim.stepPos st.1 st.2 ((a.1 : ℝ) * 10) ((a.2 : ℝ) * 50)).1,
        st.1.2.1,
        (sim.stepPos st.1 st.2 ((a.1 : ℝ) * 10) ((a.2 : ℝ) * 50)).2.2),
       sim.stepRot st.1 st.2 ((a.1 : ℝ) * 10) ((a.2 : ℝ) * 50))) ∧
    ∃ n1 st1 v1 n2 st2 v2,
      play_env sim args fuel (level + 1) (trialPose sim st (0, 1))
          (nextVisit visit (trialPose sim st (0, 1)))
          (!has_visited visit (trialPose sim st (0, 1))) = some (some n1, st1, v1) ∧
      play_env sim args fuel (level + 1) (trialPose sim st (1, 0))
          (nextVisit v1 (trialPose sim st (1, 0)))
          (!has_visited v1 (trialPose sim st (1, 0))) = some (some n2, st2, v2) ∧
      n = 1 + n1 + n2 := by
  refine ⟨rfl, fun a => rfl, ?_⟩
  obtain ⟨n1, st1, v1, n2, st2, v2, h1, h2, h3, -, -⟩ :=
    play_env_proceed_elim sim args fuel level st visit flag n st' v' hnav hcon hflag h
  exact ⟨n1, st1, v1, n2, st2, v2, h1, h2, h3⟩

/-- C3 witness: the theorem applied to a concrete proceeding run. -/
theorem play_env_two_fixed_actions_witness :
    base_actions = [(0, 1), (1, 0)] ∧
    (∀ a : ℤ × ℤ, trialPose simW pose0 a =
      (((simW.stepPos pose0.1 pose0.2 ((a.1 : ℝ) * 10) ((a.2 : ℝ) * 50)).1,
        pose0.1.2.1,
        (simW.stepPos pose0.1 pose0.2 ((a.1 : ℝ) * 10) ((a.2 : ℝ) * 50)).2.2),
       simW.stepRot pose0.1 pose0.2 ((a.1 : ℝ) * 10) ((a.2 : ℝ) * 50))) ∧
    ∃ n1 st1 v1 n2 st2 v2,
      play_env simW defaultArgs 1 1 (trialPose simW pose0 (0, 1))
          (nextVisit [] (trialPose simW pose0 (0, 1)))
          (!has_visited [] (trialPose simW pose0 (0, 1))) = some (some n1, st1, v1) ∧
      play_env simW defaultArgs 1 1 (trialPose simW pose0 (1, 0))
          (nextVisit v1 (trialPose simW pose0 (1, 0)))
          (!has_visited v1 (trialPose simW pose0 (1, 0))) = some (some n2, st2, v2) ∧
      1 = 1 + n1 + n2 :=
  play_env_two_fixed_actions simW defaultArgs 1 0 pose0 [] true 1 poseW [poseW]
    rfl simW_contact0 rfl simW_run

/-- C10: integrating a candidate base action never changes the robot's
height — the Y component (index 1) of every candidate pose equals the Y
component of the base position at function entry — and in a proceeding step
both candidate actions are integrated from the same entry pose `st`, because
the base is reset to the entry position and rotation before each trial. -/
theorem play_env_preserves_height (sim : Sim) (args : Args)
    (fuel level : ℕ) (st : Pose) (visit : List Pose) (flag : Bool)
    (n : ℕ) (st' : Pose) (v' : List Pose)
    (hnav : sim.navigable st.1 = true) (hcon : sim.contact st.1 st.2 = false)
    (hflag : flag = true)
    (h : play_env sim args (fuel + 1) level st visit flag = some (some n, st', v')) :
    (∀ a : ℤ × ℤ, (trialPose sim st a).1.2.1 = st.1.2.1) ∧
    ∃ n1 st1 v1 n2 st2 v2,
      play_env sim args fuel (level + 1) (trialPose sim st (0, 1))
          (nextVisit visit (trialPose sim st (0, 1)))
          (!has_visited visit (trialPose sim st (0, 1))) = some (some n1, st1, v1) ∧
      play_env sim args fuel (level + 1) (trialPose sim st (1, 0))
          (nextVisit v1 (trialPose sim st (1, 0)))
          (!has_visited v1 (trialPose sim st (1, 0))) = some (some n2, st2, v2) := by
  refine ⟨fun a => rfl, ?_⟩
  obtain ⟨n1, st1, v1, n2, st2, v2, h1, h2, -, -, -⟩ :=
    play_env_proceed_elim sim args fuel level st visit flag n st' v' hnav hcon hflag h
  exact ⟨n1, st1, v1, n2, st2, v2, h1, h2⟩

/-- C10 witness: the theorem applied to a concrete proceeding run. -/
theorem play_env_preserves_height_witness :
    (∀ a : ℤ × ℤ, (trialPose simW pose0 a).1.2.1 = pose0.1.2.1) ∧
    ∃ n1 st1 v1 n2 st2 v2,
      play_env simW defaultArgs 1 1 (trialPose simW pose0 (0, 1))
          (nextVisit [] (trialPose simW pose0 (0, 1)))
          (!has_visited [] (trialPose simW pose0 (0, 1))) = some (some n1, st1, v1) ∧
      play_env simW defaultArgs 1 1 (trialPose simW pose0 (1, 0))
          (nextVisit v1 (trialPose simW pose0 (1, 0)))
          (!has_visited v1 (trialPose simW pose0 (1, 0))) = some (some n2, st2, v2) :=
  play_env_preserves_height simW defaultArgs 1 0 pose0 [] true 1 poseW [poseW]
    rfl simW_contact0 rfl simW_run

/-- C5 counterexample: the negation of the claim — there is no run
configuration under which the program completes without writing the pickle
file, because the `pickle.dump` at lines 557-560 is unconditional. -/
theorem no_config_skips_pickle :
    ¬ ∃ a : Args, Artifact.pickle ∉ mainArtifacts a := by
  rintro ⟨a, ha⟩
  exact ha (by simp [mainArtifacts])

/-- C5 (amended): the visited-pose list is transient, held in process
memory for one exploration run; pickling it to disk is unconditional, not
optional — every run that completes writes the pickle file (to a hard-coded
path). -/
theorem pickle_always_written : ∀ a : Args, Artifact.pickle ∈ mainArtifacts a := by
  intro a
  simp [mainArtifacts]

/-- C6 counterexample: even with `--save-obs` and `--save-actions` given,
the program writes no MP4 video and no action trajectory file — those
options are parsed (lines 446-451) but never read again, and no saving code
is reachable. -/
theorem save_obs_produces_no_mp4 :
    ({ defaultArgs with save_obs := true, save_actions := true } : Args).save_obs = true ∧
    Artifact.mp4 ∉ mainArtifacts { defaultArgs with save_obs := true, save_actions := true } ∧
    Artifact.actionsFile ∉
      mainArtifacts { defaultArgs with save_obs := true, save_actions := true } := by
  refine ⟨rfl, ?_, ?_⟩ <;> simp [mainArtifacts]

/-- C6 (amended): every completed run persists exactly a pickled visit list
and a PNG plot (via pickle and matplotlib, external libraries' native
formats); no MP4 video or action trajectory file is ever produced, whatever
the options. -/
theorem artifacts_exactly_pickle_png :
    ∀ a : Args,
      Artifact.pickle ∈ mainArtifacts a ∧ Artifact.png ∈ mainArtifacts a ∧
      Artifact.mp4 ∉ mainArtifacts a ∧ Artifact.actionsFile ∉ mainArtifacts a := by
  intro a
  refine ⟨?_, ?_, ?_, ?_⟩ <;> simp [mainArtifacts]

/-- C7 counterexample: with PyGame unavailable but `--no-render` given, the
program raises nothing at startup and proceeds to construct the environment
(line 505: the ImportError is guarded by `not args.no_render`), so the
missing GUI library does not raise for every combination of options. -/
theorem no_render_skips_import_error :
    mainPhase false true argsNR = MainPhase.envConstructed := rfl

/-- C7 (amended): when PyGame cannot be imported, the program raises
`ImportError` at startup exactly when rendering is enabled, i.e. exactly
when `--no-render` is absent. -/
theorem import_error_iff_rendering (hasArmAction : Bool) (args : Args) :
    mainStartup false hasArmAction args = some StartupErr.importErr ↔
      args.no_render = false := by
  cases hnr : args.no_render <;> cases hik : args.add_ik <;> cases hasArmAction <;>
    simp [mainStartup, hnr, hik]

/-- C8: when the import check passes (PyGame available, or rendering
disabled), giving `--add-ik` while the task configuration's action set has
no `ARM_ACTION` entry makes `__main__` raise `ValueError` directly, before
the environment is constructed. -/
theorem add_ik_without_arm_action_raises (pygameAvailable : Bool) (args : Args)
    (hpass : pygameAvailable = true ∨ args.no_render = true)
    (hik : args.add_ik = true) :
    mainPhase pygameAvailable false args = MainPhase.raised StartupErr.valueErr := by
  rcases hpass with h | h <;> simp [mainPhase, mainStartup, h, hik]

/-- C8 witness: the theorem applied to PyGame available and `--add-ik`. -/
theorem add_ik_without_arm_action_raises_witness :
    mainPhase true false argsIK = MainPhase.raised StartupErr.valueErr :=
  add_ik_without_arm_action_raises true argsIK (Or.inl rfl) rfl
